import Mathlib

/- Verification model of the dlp-client repository.

   Shallow embeddings of the two scripts
     src/dlp_hybrid_fs.py     (bulk directory scan feeding a DLP hybrid job)
     src/dlp_fs_inspection.py (single-file synchronous DLP inspection)
   together with theorems about the file-selection and content-dispatch
   pipeline.  Filesystem reads, the remote client and the remote calls are
   passed in explicitly (as `Except`-valued functions), mirroring the
   try/except structure of the Python source; text is modelled as lists of
   Unicode code points and file contents as lists of byte values. -/

namespace DlpModel

/-- UTF-8 encoding of one Unicode scalar value (code point), as CPython's
UTF-8 codec produces it: 1 to 4 bytes depending on the magnitude. -/
def utf8EncodeChar (n : Nat) : List Nat :=
  if n < 128 then [n]
  else if n < 2048 then [192 + n / 64, 128 + n % 64]
  else if n < 65536 then [224 + n / 4096, 128 + (n / 64) % 64, 128 + n % 64]
  else [240 + n / 262144, 128 + (n / 4096) % 64, 128 + (n / 64) % 64, 128 + n % 64]

/-- UTF-8 encoding of a sequence of code points. -/
def utf8Encode : List Nat → List Nat
  | [] => []
  | c :: t => utf8EncodeChar c ++ utf8Encode t

/-- Model of CPython's UTF-8 decoder with `errors='ignore'`, as invoked by
`io.open(file_path, 'r', encoding='utf-8', errors='ignore')` in
src/dlp_hybrid_fs.py line 100: a standard UTF-8 decode (leads C2-DF, E0-EF,
F0-F4 with the usual continuation ranges, which exclude overlong forms and
surrogates) in which the bytes of any ill-formed subsequence are silently
dropped instead of raising; a truncated sequence at end of input is dropped
as well. -/
def utf8DecodeIgnore : List Nat → List Nat
  | [] => []
  | b :: rest =>
    if b < 128 then b :: utf8DecodeIgnore rest
    else if b < 194 then utf8DecodeIgnore rest
    else if b < 224 then
      match rest with
      | [] => []
      | b1 :: rest1 =>
        if 128 ≤ b1 ∧ b1 < 192 then
          ((b - 192) * 64 + (b1 - 128)) :: utf8DecodeIgnore rest1
        else utf8DecodeIgnore (b1 :: rest1)
    else if b < 240 then
      match rest with
      | [] => []
      | b1 :: rest1 =>
        if (if b = 224 then 160 ≤ b1 ∧ b1 < 192
            else if b = 237 then 128 ≤ b1 ∧ b1 < 160
            else 128 ≤ b1 ∧ b1 < 192) then
          match rest1 with
          | [] => []
          | b2 :: rest2 =>
            if 128 ≤ b2 ∧ b2 < 192 then
              ((b - 224) * 4096 + (b1 - 128) * 64 + (b2 - 128)) :: utf8DecodeIgnore rest2
            else utf8DecodeIgnore (b2 :: rest2)
        else utf8DecodeIgnore (b1 :: rest1)
    else if b < 245 then
      match rest with
      | [] => []
      | b1 :: rest1 =>
        if (if b = 240 then 144 ≤ b1 ∧ b1 < 192
            else if b = 244 then 128 ≤ b1 ∧ b1 < 144
            else 128 ≤ b1 ∧ b1 < 192) then
          match rest1 with
          | [] => []
          | b2 :: rest2 =>
            if 128 ≤ b2 ∧ b2 < 192 then
              match rest2 with
              | [] => []
              | b3 :: rest3 =>
                if 128 ≤ b3 ∧ b3 < 192 then
                  ((b - 240) * 262144 + (b1 - 128) * 4096 + (b2 - 128) * 64 + (b3 - 128))
                    :: utf8DecodeIgnore rest3
                else utf8DecodeIgnore (b3 :: rest3)
            else utf8DecodeIgnore (b2 :: rest2)
        else utf8DecodeIgnore (b1 :: rest1)
    else utf8DecodeIgnore rest

/-- A natural number is a Unicode scalar value: in range and not a surrogate.
These are exactly the code points a Python `str` may contain and that UTF-8
encodes. -/
def isScalar (n : Nat) : Prop := n < 1114112 ∧ (n < 55296 ∨ 57344 ≤ n)

instance (n : Nat) : Decidable (isScalar n) := by
  unfold isScalar
  infer_instance

/-- The basename of a POSIX path: the characters after the last `/`. -/
def basenameChars (p : List Char) : List Char :=
  (p.reverse.takeWhile (fun c => c ≠ '/')).reverse

/-- Model of the extension component returned by `os.path.splitext` (POSIX
variant), as used in src/dlp_hybrid_fs.py line 80: the suffix of the basename
starting at its last dot, except that leading dots of the basename never start
an extension (so `.bashrc` has extension `""` while `a.txt` has `".txt"`). -/
def splitextExtChars (p : List Char) : List Char :=
  let b := basenameChars p
  let core := b.dropWhile (fun c => c = '.')
  if core.contains '.' then
    '.' :: (core.reverse.takeWhile (fun c => c ≠ '.')).reverse
  else []

/-- The extension component of `os.path.splitext` on a `String` path. -/
def splitextExt (p : String) : String :=
  ⟨splitextExtChars p.data⟩

/-- Model of Python's `str.lower()` restricted to ASCII letters, which is all
that extension strings exercise. -/
def strLower (s : String) : String :=
  ⟨s.data.map Char.toLower⟩

/- ===== Model of src/dlp_hybrid_fs.py (bulk directory scan, hybrid job) ===== -/

/-- The `data_item_mode` hint of a hybrid content item:
`dlp.HybridContentItem.BytesType.TEXT` or `.BYTES`. -/
inductive BytesType
  | TEXT
  | BYTES
deriving DecidableEq, Repr

/-- The content loaded for one file, together with the mode the loader
recorded for it (`content`/`data_item_mode` in lines 100-108). -/
structure Payload where
  content : List Nat
  mode : BytesType
deriving DecidableEq, Repr

/-- The request dictionary built by `send_to_hybrid_job` (lines 37-47):
job name, the content, the `data_item_mode` hint, and the file-path
finding metadata. -/
structure HybridRequest where
  name : String
  content : List Nat
  dataItemMode : BytesType
  metaFilePath : String
deriving DecidableEq, Repr

/-- Request construction in `send_to_hybrid_job` (src/dlp_hybrid_fs.py lines
37-47).  The source hardcodes `data_item_mode` to
`dlp.HybridContentItem.BytesType.TEXT` (line 41) no matter how the content was
loaded; the loader's computed `data_item_mode` variable is never passed in. -/
def buildHybridRequest (jobName filePath : String) (content : List Nat) : HybridRequest :=
  { name := jobName
    content := content
    dataItemMode := BytesType.TEXT
    metaFilePath := filePath }

/-- Per-file result of the main loop of src/dlp_hybrid_fs.py.  The `skipped*`
constructors are the `continue` branches that increment `skipped_count`
(lines 80-112); `sent` and `sendFailed` are the two exits of
`send_to_hybrid_job` (lines 52-62), after both of which the loop increments
`processed_count` (line 116).  `sendFailed` carries the error message the
except-branches print. -/
inductive Outcome
  | skippedExtension
  | skippedSize (size : Nat)
  | skippedStatError (msg : String)
  | skippedReadError (msg : String)
  | sent
  | sendFailed (msg : String)
deriving DecidableEq, Repr

/-- Whether the outcome increments `processed_count` (line 116: incremented
after `send_to_hybrid_job` returns, whether or not the submission failed). -/
def Outcome.countsProcessed : Outcome → Bool
  | .sent => true
  | .sendFailed _ => true
  | _ => false

/-- Whether the outcome increments `skipped_count` (lines 82, 90, 94, 111). -/
def Outcome.countsSkipped : Outcome → Bool
  | .skippedExtension => true
  | .skippedSize _ => true
  | .skippedStatError _ => true
  | .skippedReadError _ => true
  | _ => false

/-- The configuration globals of src/dlp_hybrid_fs.py: `include_extensions`
(line 16) and `max_file_size_bytes` (line 20). -/
structure Config where
  includeExtensions : List String
  maxFileSizeBytes : Nat
deriving DecidableEq, Repr

/-- The filesystem operations the scan performs on one path, each of which may
raise: `os.path.getsize` (line 87), the UTF-8 text open/read (line 100, the
result is the raw bytes the decoder then sees) and the raw-byte open/read
(line 106).  The text and byte reads are distinct system interactions, so they
are modelled as separately fallible. -/
structure FS where
  statSize : String → Except String Nat
  readTextRaw : String → Except String (List Nat)
  readBin : String → Except String (List Nat)

/-- The observable operations performed while handling one file, in order. -/
inductive Effect
  | statQuery
  | readTextAttempt
  | readBinAttempt
  | sendSubmit (req : HybridRequest)
deriving DecidableEq, Repr

/-- The extension filter of line 80:
`include_extensions and os.path.splitext(file_path)[1].lower() not in
include_extensions`.  Only the file's extension is lowercased; the entries of
`include_extensions` are compared verbatim. -/
def excludedByExtension (includeExtensions : List String) (filePath : String) : Bool :=
  !includeExtensions.isEmpty && !(includeExtensions.contains (strLower (splitextExt filePath)))

/-- The universal-newlines translation that `io.open(file_path, 'r', ...)`
performs with its default `newline=None` (src/dlp_hybrid_fs.py line 100):
after decoding, every `"\r\n"` pair and every lone `"\r"` (code point 13)
becomes `"\n"` (code point 10) in the text `f.read()` returns. -/
def universalNewlines : List Nat → List Nat
  | [] => []
  | [c] => if c = 13 then [10] else [c]
  | c :: c2 :: t =>
    if c = 13 then
      if c2 = 10 then 10 :: universalNewlines t
      else 10 :: universalNewlines (c2 :: t)
    else c :: universalNewlines (c2 :: t)

/-- The content-loading step (src/dlp_hybrid_fs.py lines 97-112) as a function
of the two read results: if the UTF-8 text open/read succeeds, the payload is
the lossy-decoded text — with the universal-newlines translation `io.open`
applies in text mode — with mode TEXT; only when the text open/read raises is
the raw-byte fallback tried, yielding the raw bytes with mode BYTES; if that
also raises, the error propagates (the file is then skipped). -/
def loadContent (textRes binRes : Except String (List Nat)) : Except String Payload :=
  match textRes with
  | .ok raw => .ok ⟨universalNewlines (utf8DecodeIgnore raw), BytesType.TEXT⟩
  | .error _ =>
    match binRes with
    | .ok bs => .ok ⟨bs, BytesType.BYTES⟩
    | .error e => .error e

/-- The effects of the content-loading step: the text read is always
attempted; the byte read only after the text read raised. -/
def readEffects (textRes : Except String (List Nat)) : List Effect :=
  match textRes with
  | .ok _ => [Effect.readTextAttempt]
  | .error _ => [Effect.readTextAttempt, Effect.readBinAttempt]

/-- `send_to_hybrid_job` (src/dlp_hybrid_fs.py lines 33-62): build the
request, call `dlp_client.hybrid_inspect_dlp_job`, and catch any error the
call raises, turning it into a printed error message instead of propagating.
Returns the outcome together with the request that was submitted. -/
def send_to_hybrid_job (sink : HybridRequest → Except String Unit)
    (jobName filePath : String) (content : List Nat) : Outcome × HybridRequest :=
  let req := buildHybridRequest jobName filePath content
  (match sink req with
   | .ok _ => Outcome.sent
   | .error e => Outcome.sendFailed e, req)

/-- The body of the per-file loop of src/dlp_hybrid_fs.py (lines 76-116):
extension filter, then size check, then content loading, then submission.
Returns the outcome together with the ordered list of observable operations
performed for the file. -/
def processFile (cfg : Config) (fs : FS) (sink : HybridRequest → Except String Unit)
    (jobName filePath : String) : Outcome × List Effect :=
  if excludedByExtension cfg.includeExtensions filePath then
    (Outcome.skippedExtension, [])
  else
    match fs.statSize filePath with
    | .error e => (Outcome.skippedStatError e, [Effect.statQuery])
    | .ok size =>
      if cfg.maxFileSizeBytes < size then
        (Outcome.skippedSize size, [Effect.statQuery])
      else
        match loadContent (fs.readTextRaw filePath) (fs.readBin filePath) with
        | .error e =>
          (Outcome.skippedReadError e, Effect.statQuery :: readEffects (fs.readTextRaw filePath))
        | .ok payload =>
          let r := send_to_hybrid_job sink jobName filePath payload.content
          (r.1, Effect.statQuery :: readEffects (fs.readTextRaw filePath)
            ++ [Effect.sendSubmit r.2])

/-- The full walk (lines 75-116): one outcome per file yielded by `os.walk`,
in order. -/
def runWalk (cfg : Config) (fs : FS) (sink : HybridRequest → Except String Unit)
    (jobName : String) (files : List String) : List (String × Outcome × List Effect) :=
  files.map (fun f => (f, processFile cfg fs sink jobName f))

/-- The `processed_count` tally printed in the scan summary (line 121). -/
def processedCount (rs : List (String × Outcome × List Effect)) : Nat :=
  (rs.filter (fun r => r.2.1.countsProcessed)).length

/-- The `skipped_count` tally printed in the scan summary (line 122). -/
def skippedCount (rs : List (String × Outcome × List Effect)) : Nat :=
  (rs.filter (fun r => r.2.1.countsSkipped)).length

/-- The number of remote submissions performed for one file. -/
def countSends (effects : List Effect) : Nat :=
  (effects.filter (fun e => match e with | Effect.sendSubmit _ => true | _ => false)).length

/-- The whole script: client construction first (lines 25-30); if
`dlp.DlpServiceClient()` raises, the script prints and calls `exit()` before
any file is visited (`none`); otherwise the walk runs. -/
def runHybridScript (clientInit : Except String Unit) (cfg : Config) (fs : FS)
    (sink : HybridRequest → Except String Unit) (jobName : String)
    (files : List String) : Option (List (String × Outcome × List Effect)) :=
  match clientInit with
  | .error _ => none
  | .ok _ => some (runWalk cfg fs sink jobName files)

/- ===== Model of src/dlp_fs_inspection.py (single-file synchronous inspect) ===== -/

/-- A reason the raw-byte read of lines 21-29 can raise: the distinguished
`FileNotFoundError` branch (line 24) or any other exception with its message
(line 27). -/
inductive ReadErr
  | fileNotFound
  | ioError (msg : String)
deriving DecidableEq, Repr

/-- An info type entry of the inspect config (line 34: `{"name": info_type}`). -/
structure InfoType where
  name : String
deriving DecidableEq, Repr

/-- A finding's `location.byte_range` (line 68-69). -/
structure ByteRange where
  start : Nat
  endPos : Nat
deriving DecidableEq, Repr

/-- A finding's `location`: the optional `byte_range`, `codeword_info` and
`content_locations` sub-messages the loop at lines 68-73 examines (absent
sub-messages are falsy in the protobuf API, modelled as `none`; the two
non-range ones are kept opaque as their printed text). -/
structure FindingLocation where
  byteRange : Option ByteRange
  codewordInfo : Option String
  contentLocations : Option String
deriving DecidableEq, Repr

/-- One finding of the inspect response (lines 61-74): the fields the script
reads, plus `quote`, the matched sensitive text, which the API object carries
but the script never accesses (the access is commented out at line 67). -/
structure Finding where
  infoType : InfoType
  likelihood : String
  location : FindingLocation
  quote : String
deriving DecidableEq, Repr

/-- The `InspectContentRequest` dictionary of lines 33-50: parent resource
name, the info types and `min_likelihood` of the inspect config, and the
byte item holding the file content. -/
structure InspectRequest where
  parent : String
  infoTypes : List InfoType
  minLikelihood : String
  byteItemType : String
  data : List Nat
deriving DecidableEq, Repr

/-- The response of `client.inspect_content` (line 56): its
`result.findings` sequence. -/
structure InspectResponse where
  findings : List Finding
deriving DecidableEq, Repr

/-- Request construction in `inspect_file` (src/dlp_fs_inspection.py lines
33-50): the `min_likelihood` argument is placed in the config unmodified and
the whole file content becomes the byte item's data. -/
def buildInspectRequest (projectId : String) (infoTypes : List String)
    (minLikelihood : String) (content : List Nat) : InspectRequest :=
  { parent := "projects/" ++ projectId ++ "/locations/global"
    infoTypes := infoTypes.map (fun t => ⟨t⟩)
    minLikelihood := minLikelihood
    byteItemType := "BYTES_TYPE_UNSPECIFIED"
    data := content }

/-- How `inspect_file` finishes when it returns normally: an early return
after a failed read (lines 24-29), the findings printed from a successful
inspect call (lines 59-76), or the caught inspect error (lines 78-79). -/
inductive SyncOutcome
  | readFailed (e : ReadErr)
  | inspected (findings : List Finding)
  | inspectError (msg : String)
deriving DecidableEq, Repr

/-- The observable remote interaction of `inspect_file`: the single
`inspect_content` call with the request it received. -/
inductive SyncEffect
  | sendRequest (req : InspectRequest)
deriving DecidableEq, Repr

/-- `inspect_file` (src/dlp_fs_inspection.py lines 5-79).  `clientInit` models
`dlp_v2.DlpServiceClient()` (line 18), which is NOT guarded by any
try/except: if it raises, the exception propagates out of the function
(modelled as `Except.error`).  Otherwise the file is read in full as raw
bytes; a read failure prints and returns early, before any remote call.  On a
successful read the request is built and `client.inspect_content` is called;
its findings are reported as-is, and any error it raises is caught and
reported, the function still returning normally. -/
def inspect_file (clientInit : Except String Unit) (fs : String → Except ReadErr (List Nat))
    (sink : InspectRequest → Except String InspectResponse) (projectId : String)
    (infoTypes : List String) (minLikelihood : String) (filePath : String) :
    Except String (SyncOutcome × List SyncEffect) :=
  match clientInit with
  | .error e => .error e
  | .ok _ =>
    match fs filePath with
    | .error e => .ok (SyncOutcome.readFailed e, [])
    | .ok content =>
      let req := buildInspectRequest projectId infoTypes minLikelihood content
      match sink req with
      | .ok resp => .ok (SyncOutcome.inspected resp.findings, [SyncEffect.sendRequest req])
      | .error e => .ok (SyncOutcome.inspectError e, [SyncEffect.sendRequest req])

/-- The lines printed for one finding (src/dlp_fs_inspection.py lines 62-74):
info type name, likelihood, then byte range, codeword info and content
locations when present, then a 20-dash separator.  The finding's `quote` is
never printed. -/
def printFinding (f : Finding) : List String :=
  ["  InfoType: " ++ f.infoType.name, "  Likelihood: " ++ f.likelihood]
  ++ (match f.location.byteRange with
      | some r => ["  Byte range: " ++ toString r.start ++ "-" ++ toString r.endPos]
      | none => [])
  ++ (match f.location.codewordInfo with
      | some c => ["  Codeword info: " ++ c]
      | none => [])
  ++ (match f.location.contentLocations with
      | some c => ["  Content locations: " ++ c]
      | none => [])
  ++ ["--------------------"]

/-- One decoding step on an ASCII byte. -/
theorem utf8DecodeIgnore_step1 (b : Nat) (t : List Nat) (h : b < 128) :
    utf8DecodeIgnore (b :: t) = b :: utf8DecodeIgnore t := by
  rw [utf8DecodeIgnore.eq_def]
  split
  · simp_all
  · rename_i b' rest' heq
    injection heq with hb ht
    subst hb; subst ht
    rw [if_pos h]

/-- One decoding step on a well-formed two-byte sequence. -/
theorem utf8DecodeIgnore_step2 (b b1 : Nat) (t : List Nat) (h1 : 194 ≤ b) (h2 : b < 224)
    (h3 : 128 ≤ b1) (h4 : b1 < 192) :
    utf8DecodeIgnore (b :: b1 :: t) = ((b - 192) * 64 + (b1 - 128)) :: utf8DecodeIgnore t := by
  rw [utf8DecodeIgnore.eq_def]
  split
  · simp_all
  · rename_i b' rest' heq
    injection heq with hb ht
    subst hb; subst ht
    rw [if_neg (by omega), if_neg (by omega), if_pos (by omega)]
    split
    · simp_all
    · rename_i b1' rest1' heq1
      injection heq1 with hb1 ht1
      subst hb1; subst ht1
      rw [if_pos ⟨h3, h4⟩]

/-- One decoding step on a well-formed three-byte sequence. -/
theorem utf8DecodeIgnore_step3 (b b1 b2 : Nat) (t : List Nat) (h1 : 224 ≤ b) (h2 : b < 240)
    (hg : if b = 224 then 160 ≤ b1 ∧ b1 < 192
          else if b = 237 then 128 ≤ b1 ∧ b1 < 160
          else 128 ≤ b1 ∧ b1 < 192)
    (h3 : 128 ≤ b2) (h4 : b2 < 192) :
    utf8DecodeIgnore (b :: b1 :: b2 :: t) =
      ((b - 224) * 4096 + (b1 - 128) * 64 + (b2 - 128)) :: utf8DecodeIgnore t := by
  rw [utf8DecodeIgnore.eq_def]
  split
  · simp_all
  · rename_i b' rest' heq
    injection heq with hb ht
    subst hb; subst ht
    rw [if_neg (by omega), if_neg (by omega), if_neg (by omega), if_pos (by omega)]
    split
    · simp_all
    · rename_i b1' rest1' heq1
      injection heq1 with hb1 ht1
      subst hb1; subst ht1
      rw [if_pos hg]
      split
      · simp_all
      · rename_i b2' rest2' heq2
        injection heq2 with hb2 ht2
        subst hb2; subst ht2
        rw [if_pos ⟨h3, h4⟩]

/-- One decoding step on a well-formed four-byte sequence. -/
theorem utf8DecodeIgnore_step4 (b b1 b2 b3 : Nat) (t : List Nat) (h1 : 240 ≤ b) (h2 : b < 245)
    (hg : if b = 240 then 144 ≤ b1 ∧ b1 < 192
          else if b = 244 then 128 ≤ b1 ∧ b1 < 144
          else 128 ≤ b1 ∧ b1 < 192)
    (h3 : 128 ≤ b2) (h4 : b2 < 192) (h5 : 128 ≤ b3) (h6 : b3 < 192) :
    utf8DecodeIgnore (b :: b1 :: b2 :: b3 :: t) =
      ((b - 240) * 262144 + (b1 - 128) * 4096 + (b2 - 128) * 64 + (b3 - 128))
        :: utf8DecodeIgnore t := by
  rw [utf8DecodeIgnore.eq_def]
  split
  · simp_all
  · rename_i b' rest' heq
    injection heq with hb ht
    subst hb; subst ht
    rw [if_neg (by omega), if_neg (by omega), if_neg (by omega), if_neg (by omega),
      if_pos (by omega)]
    split
    · simp_all
    · rename_i b1' rest1' heq1
      injection heq1 with hb1 ht1
      subst hb1; subst ht1
      rw [if_pos hg]
      split
      · simp_all
      · rename_i b2' rest2' heq2
        injection heq2 with hb2 ht2
        subst hb2; subst ht2
        rw [if_pos ⟨h3, h4⟩]
        split
        · simp_all
        · rename_i b3' rest3' heq3
          injection heq3 with hb3 ht3
          subst hb3; subst ht3
          rw [if_pos ⟨h5, h6⟩]

/-- Decoding the UTF-8 encoding of one scalar value, followed by any tail,
recovers the scalar value and continues with the tail. -/
theorem utf8DecodeIgnore_encodeChar (n : Nat) (h : isScalar n) (t : List Nat) :
    utf8DecodeIgnore (utf8EncodeChar n ++ t) = n :: utf8DecodeIgnore t := by
  obtain ⟨hlt, hsur⟩ := h
  by_cases h1 : n < 128
  · simp only [utf8EncodeChar, if_pos h1, List.cons_append, List.nil_append]
    rw [utf8DecodeIgnore_step1 n t h1]
  · by_cases h2 : n < 2048
    · simp only [utf8EncodeChar, if_neg h1, if_pos h2, List.cons_append, List.nil_append]
      rw [utf8DecodeIgnore_step2 (192 + n / 64) (128 + n % 64) t (by omega) (by omega)
        (by omega) (by omega)]
      simp only [List.cons.injEq]
      refine ⟨by omega, trivial⟩
    · by_cases h3 : n < 65536
      · simp only [utf8EncodeChar, if_neg h1, if_neg h2, if_pos h3, List.cons_append,
          List.nil_append]
        rw [utf8DecodeIgnore_step3 (224 + n / 4096) (128 + n / 64 % 64) (128 + n % 64) t
          (by omega) (by omega) ?hg (by omega) (by omega)]
        · simp only [List.cons.injEq]
          refine ⟨by omega, trivial⟩
        case hg =>
          by_cases hA : n < 4096
          · rw [if_pos (show 224 + n / 4096 = 224 from by omega)]
            omega
          · by_cases hC : 53248 ≤ n ∧ n < 57344
            · have hs : n < 55296 := by omega
              rw [if_neg (show ¬(224 + n / 4096 = 224) from by omega),
                if_pos (show 224 + n / 4096 = 237 from by omega)]
              omega
            · rw [if_neg (show ¬(224 + n / 4096 = 224) from by omega),
                if_neg (show ¬(224 + n / 4096 = 237) from by omega)]
              omega
      · simp only [utf8EncodeChar, if_neg h1, if_neg h2, if_neg h3, List.cons_append,
          List.nil_append]
        rw [utf8DecodeIgnore_step4 (240 + n / 262144) (128 + n / 4096 % 64) (128 + n / 64 % 64)
          (128 + n % 64) t (by omega) (by omega) ?hg (by omega) (by omega) (by omega) (by omega)]
        · simp only [List.cons.injEq]
          refine ⟨by omega, trivial⟩
        case hg =>
          by_cases hA : n < 262144
          · rw [if_pos (show 240 + n / 262144 = 240 from by omega)]
            omega
          · by_cases hB : 1048576 ≤ n
            · rw [if_neg (show ¬(240 + n / 262144 = 240) from by omega),
                if_pos (show 240 + n / 262144 = 244 from by omega)]
              omega
            · rw [if_neg (show ¬(240 + n / 262144 = 240) from by omega),
                if_neg (show ¬(240 + n / 262144 = 244) from by omega)]
              omega

/-- Decoding an all-scalar UTF-8 encoded sequence recovers every code point:
the lossy `errors='ignore'` decode loses nothing on well-formed input. -/
theorem utf8DecodeIgnore_encode (s : List Nat) (h : ∀ n ∈ s, isScalar n) :
    utf8DecodeIgnore (utf8Encode s) = s := by
  induction s with
  | nil => rfl
  | cons c t ih =>
    have hc : isScalar c := h c (by simp)
    have ht : ∀ n ∈ t, isScalar n := fun n hn => h n (by simp [hn])
    simp only [utf8Encode]
    rw [utf8DecodeIgnore_encodeChar c hc (utf8Encode t), ih ht]

/-- Universal-newlines translation is the identity on text that contains no
carriage return (code point 13). -/
theorem universalNewlines_eq_self (s : List Nat) (h : 13 ∉ s) :
    universalNewlines s = s := by
  induction s with
  | nil => rfl
  | cons c t ih =>
    have hc : c ≠ 13 := fun hc => h (by simp [hc])
    have ht : 13 ∉ t := fun hm => h (List.mem_cons_of_mem c hm)
    cases t with
    | nil => simp [universalNewlines, hc]
    | cons c2 t2 =>
      have h2 := ih ht
      simp only [universalNewlines, if_neg hc]
      rw [h2]

/- ===== Claim theorems ===== -/

/-- C9, counterexample.  The extension filter is not case-insensitive with
respect to the entries of `include_extensions`: for the file `a.txt` and the
allow-list `[".TXT"]` a case-insensitive match exists (the lowercased
extension and lowercased entry agree), yet the file is excluded, because the
code lowercases only the file's extension and compares it verbatim against
the list entries. -/
theorem extension_filter_not_case_insensitive_for_list_entries :
    strLower (splitextExt "a.txt") = strLower ".TXT" ∧
    excludedByExtension [".TXT"] "a.txt" = true := by
  constructor
  · decide
  · decide

/-- C9, amended.  A file is excluded with reason "extension" exactly when
`include_extensions` is non-empty and the file's lowercased extension is not
literally one of its entries: matching lowercases only the file's extension,
so `A.TXT` passes a filter containing ".txt" while `a.txt` does not pass a
filter containing ".TXT". -/
theorem extension_filter_lowercases_file_ext_only :
    (∀ (cfg : Config) (fs : FS) (sink : HybridRequest → Except String Unit)
        (jobName filePath : String),
      (processFile cfg fs sink jobName filePath).1 = Outcome.skippedExtension ↔
        excludedByExtension cfg.includeExtensions filePath = true) ∧
    (∀ (exts : List String) (filePath : String),
      excludedByExtension exts filePath = true ↔
        (exts ≠ [] ∧ strLower (splitextExt filePath) ∉ exts)) ∧
    excludedByExtension [".txt"] "A.TXT" = false ∧
    excludedByExtension [".TXT"] "a.txt" = true := by
  refine ⟨?_, ?_, by decide, by decide⟩
  · intro cfg fs sink jobName filePath
    by_cases h : excludedByExtension cfg.includeExtensions filePath
    · simp [processFile, h]
    · simp only [processFile, h, Bool.false_eq_true, if_false]
      repeat' split
      all_goals try simp_all [send_to_hybrid_job]
      all_goals split <;> simp_all
  · intro exts filePath
    simp [excludedByExtension, List.isEmpty_iff]

/-- C5.  The traversal filters short-circuit in order: a file excluded by the
extension allow-list performs no stat/size query at all, and a file whose
size exceeds `max_file_size_bytes` never reaches the content loader (no text
or byte read attempt occurs). -/
theorem filters_short_circuit_in_order (cfg : Config) (fs : FS)
    (sink : HybridRequest → Except String Unit) (jobName filePath : String) :
    (excludedByExtension cfg.includeExtensions filePath = true →
      Effect.statQuery ∉ (processFile cfg fs sink jobName filePath).2) ∧
    (∀ n, fs.statSize filePath = Except.ok n → cfg.maxFileSizeBytes < n →
      Effect.readTextAttempt ∉ (processFile cfg fs sink jobName filePath).2 ∧
      Effect.readBinAttempt ∉ (processFile cfg fs sink jobName filePath).2) := by
  constructor
  · intro h
    simp [processFile, h]
  · intro n hstat hsize
    by_cases h : excludedByExtension cfg.includeExtensions filePath
    · simp [processFile, h]
    · simp [processFile, h, hstat, hsize]

/-- C5, witness: a `.bin` file rejected by a `[".txt"]` allow-list performs no
stat query, and an oversized `.txt` file performs no read attempt. -/
theorem filters_short_circuit_witness :
    Effect.statQuery ∉ (processFile ⟨[".txt"], 1048576⟩
        ⟨fun _ => Except.ok 500, fun _ => Except.ok [], fun _ => Except.ok []⟩
        (fun _ => Except.ok ()) "job" "b.bin").2 ∧
    (Effect.readTextAttempt ∉ (processFile ⟨[".txt"], 1048576⟩
        ⟨fun _ => Except.ok 5242880, fun _ => Except.ok [], fun _ => Except.ok []⟩
        (fun _ => Except.ok ()) "job" "big.txt").2 ∧
      Effect.readBinAttempt ∉ (processFile ⟨[".txt"], 1048576⟩
        ⟨fun _ => Except.ok 5242880, fun _ => Except.ok [], fun _ => Except.ok []⟩
        (fun _ => Except.ok ()) "job" "big.txt").2) :=
  ⟨(filters_short_circuit_in_order ⟨[".txt"], 1048576⟩
      ⟨fun _ => Except.ok 500, fun _ => Except.ok [], fun _ => Except.ok []⟩
      (fun _ => Except.ok ()) "job" "b.bin").1 (by decide),
    (filters_short_circuit_in_order ⟨[".txt"], 1048576⟩
      ⟨fun _ => Except.ok 5242880, fun _ => Except.ok [], fun _ => Except.ok []⟩
      (fun _ => Except.ok ()) "job" "big.txt").2 5242880 rfl (by decide)⟩

/-- C8.  The walk produces exactly one outcome per yielded file (the outcome
list projects back onto the file list), every outcome increments exactly one
of the reporter's two tallies exactly once, and the summary counts together
account for every file considered: `processed_count + skipped_count` equals
the number of files walked.  (Submission errors are tallied under
`processed_count` and stat/read errors under `skipped_count`, so no error is
dropped from the counts.) -/
theorem every_file_exactly_one_outcome_counts_total (cfg : Config) (fs : FS)
    (sink : HybridRequest → Except String Unit) (jobName : String) (files : List String) :
    (runWalk cfg fs sink jobName files).map Prod.fst = files ∧
    processedCount (runWalk cfg fs sink jobName files)
      + skippedCount (runWalk cfg fs sink jobName files) = files.length ∧
    (runWalk cfg fs sink jobName files).all
      (fun r => r.2.1.countsProcessed != r.2.1.countsSkipped) = true := by
  refine ⟨?_, ?_, ?_⟩
  · simp [runWalk, List.map_map, Function.comp_def]
  · induction files with
    | nil => simp [runWalk, processedCount, skippedCount]
    | cons f t ih =>
      have hone : ((processFile cfg fs sink jobName f).1.countsProcessed = true
            ∧ (processFile cfg fs sink jobName f).1.countsSkipped = false)
          ∨ ((processFile cfg fs sink jobName f).1.countsProcessed = false
            ∧ (processFile cfg fs sink jobName f).1.countsSkipped = true) := by
        cases (processFile cfg fs sink jobName f).1 <;>
          simp [Outcome.countsProcessed, Outcome.countsSkipped]
      simp only [runWalk, List.map_cons, processedCount, skippedCount,
        List.filter_cons, List.length_cons] at ih ⊢
      rcases hone with ⟨h1, h2⟩ | ⟨h1, h2⟩ <;> simp [h1, h2] at ih ⊢ <;> omega
  · simp only [runWalk, List.all_eq_true, List.mem_map]
    rintro r ⟨f, hf, rfl⟩
    cases hp : (processFile cfg fs sink jobName f).1 <;>
      simp [Outcome.countsProcessed, Outcome.countsSkipped, hp]

/-- C1, counterexample.  A file whose submission to the hybrid job fails
(the remote call raises "transient error") produces the failure outcome, yet
it is still counted in `processed_count` (line 116 increments it regardless
of the submission outcome), contradicting "it is not counted as PROCESSED". -/
theorem errored_submission_counted_processed :
    (runWalk ⟨[], 1000000⟩
        ⟨fun _ => Except.ok 10, fun _ => Except.ok [104, 105], fun _ => Except.ok [104, 105]⟩
        (fun _ => Except.error "transient error") "job" ["c.log"]).map (fun r => (r.1, r.2.1))
      = [("c.log", Outcome.sendFailed "transient error")] ∧
    processedCount (runWalk ⟨[], 1000000⟩
        ⟨fun _ => Except.ok 10, fun _ => Except.ok [104, 105], fun _ => Except.ok [104, 105]⟩
        (fun _ => Except.error "transient error") "job" ["c.log"]) = 1 := by
  constructor
  · decide
  · decide

/-- C1, amended.  When the submission of a file to the hybrid job fails, the
outcome is the submission failure carrying the underlying error message, the
remote call is made exactly once (no retry), and the walk continues to the
next file unaffected; however the file is still counted in `processed_count`
(the script keeps no separate errored tally). -/
theorem submission_failure_errored_no_retry_walk_continues (cfg : Config) (fs : FS)
    (sink : HybridRequest → Except String Unit) (jobName filePath : String)
    (raw : List Nat) (n : Nat) (e : String)
    (hext : excludedByExtension cfg.includeExtensions filePath = false)
    (hstat : fs.statSize filePath = Except.ok n) (hsize : ¬ cfg.maxFileSizeBytes < n)
    (hread : fs.readTextRaw filePath = Except.ok raw)
    (hsink : sink (buildHybridRequest jobName filePath
        (universalNewlines (utf8DecodeIgnore raw))) = Except.error e) :
    (processFile cfg fs sink jobName filePath).1 = Outcome.sendFailed e ∧
    countSends (processFile cfg fs sink jobName filePath).2 = 1 ∧
    Outcome.countsProcessed (processFile cfg fs sink jobName filePath).1 = true ∧
    ∀ rest, runWalk cfg fs sink jobName (filePath :: rest)
      = (filePath, processFile cfg fs sink jobName filePath)
          :: runWalk cfg fs sink jobName rest := by
  have hp : processFile cfg fs sink jobName filePath
      = (Outcome.sendFailed e,
         [Effect.statQuery, Effect.readTextAttempt,
          Effect.sendSubmit (buildHybridRequest jobName filePath
            (universalNewlines (utf8DecodeIgnore raw)))]) := by
    simp [processFile, hext, hstat, hsize, hread, loadContent, readEffects,
      send_to_hybrid_job, hsink]
  refine ⟨by rw [hp], by rw [hp]; rfl, by rw [hp]; rfl, ?_⟩
  intro rest
  simp [runWalk]

/-- C1, witness: a stub sink raising "transient error" on the single file
`c.log`, with a second file `d.log` following in the walk. -/
theorem submission_failure_witness :
    (processFile ⟨[], 1000⟩
        ⟨fun _ => Except.ok 10, fun _ => Except.ok [104], fun _ => Except.ok [104]⟩
        (fun _ => Except.error "transient error") "job" "c.log").1
      = Outcome.sendFailed "transient error" ∧
    countSends (processFile ⟨[], 1000⟩
        ⟨fun _ => Except.ok 10, fun _ => Except.ok [104], fun _ => Except.ok [104]⟩
        (fun _ => Except.error "transient error") "job" "c.log").2 = 1 ∧
    Outcome.countsProcessed (processFile ⟨[], 1000⟩
        ⟨fun _ => Except.ok 10, fun _ => Except.ok [104], fun _ => Except.ok [104]⟩
        (fun _ => Except.error "transient error") "job" "c.log").1 = true ∧
    runWalk ⟨[], 1000⟩
        ⟨fun _ => Except.ok 10, fun _ => Except.ok [104], fun _ => Except.ok [104]⟩
        (fun _ => Except.error "transient error") "job" ["c.log", "d.log"]
      = ("c.log", processFile ⟨[], 1000⟩
            ⟨fun _ => Except.ok 10, fun _ => Except.ok [104], fun _ => Except.ok [104]⟩
            (fun _ => Except.error "transient error") "job" "c.log")
          :: runWalk ⟨[], 1000⟩
            ⟨fun _ => Except.ok 10, fun _ => Except.ok [104], fun _ => Except.ok [104]⟩
            (fun _ => Except.error "transient error") "job" ["d.log"] := by
  have h := submission_failure_errored_no_retry_walk_continues ⟨[], 1000⟩
    ⟨fun _ => Except.ok 10, fun _ => Except.ok [104], fun _ => Except.ok [104]⟩
    (fun _ => Except.error "transient error") "job" "c.log" [104] 10 "transient error"
    (by decide) rfl (by decide) rfl rfl
  exact ⟨h.1, h.2.1, h.2.2.1, h.2.2.2 ["d.log"]⟩

/-- C2 (code bug).  For a file whose UTF-8 text open raises while the
raw-byte open succeeds, the loader records mode BYTES in the payload, but the
request actually submitted for the file carries `data_item_mode` TEXT:
`send_to_hybrid_job` hardcodes TEXT (line 41) and the loop never passes the
computed `data_item_mode` variable to it (line 115), so the submitted mode
disagrees with the recorded mode. -/
theorem data_item_mode_recorded_not_submitted :
    loadContent (Except.error "Permission denied") (Except.ok [0, 159, 255])
      = Except.ok ⟨[0, 159, 255], BytesType.BYTES⟩ ∧
    (processFile ⟨[], 1000000⟩
        ⟨fun _ => Except.ok 3, fun _ => Except.error "Permission denied",
          fun _ => Except.ok [0, 159, 255]⟩
        (fun _ => Except.ok ()) "job" "c.bin").2
      = [Effect.statQuery, Effect.readTextAttempt, Effect.readBinAttempt,
         Effect.sendSubmit ⟨"job", [0, 159, 255], BytesType.TEXT, "c.bin"⟩] ∧
    BytesType.TEXT ≠ BytesType.BYTES := by
  refine ⟨rfl, by decide, by decide⟩

/-- C3, counterexample.  For a file whose content is the single byte 0xFF
(not valid UTF-8), text-mode loading completes, but the binary fallback is
NOT used: the `errors='ignore'` decode succeeds, the payload mode is TEXT,
and the invalid byte is silently dropped rather than preserved.  Moreover the
valid-UTF-8 preservation conjunct fails too: the valid UTF-8 content
"a\r\nb" ([97, 13, 10, 98]) loads as "a\nb" ([97, 10, 98]) because text mode
applies universal-newlines translation. -/
theorem invalid_utf8_no_binary_fallback :
    loadContent (Except.ok [255]) (Except.ok [255])
      = Except.ok ⟨[], BytesType.TEXT⟩ ∧
    BytesType.TEXT ≠ BytesType.BYTES ∧
    utf8DecodeIgnore [255] = [] ∧
    loadContent (Except.ok (utf8Encode [97, 13, 10, 98])) (Except.ok [97, 13, 10, 98])
      = Except.ok ⟨[97, 10, 98], BytesType.TEXT⟩ ∧
    [97, 10, 98] ≠ [97, 13, 10, 98] := by
  refine ⟨rfl, by decide, by decide, rfl, by decide⟩

/-- C3, amended.  For every file whose content is valid UTF-8, text-mode
loading completes without raising and yields every decoded character subject
only to universal-newlines translation ("\r\n" and lone "\r" become "\n"); in
particular every character is preserved whenever the content holds no
carriage return.  Invalid byte sequences never raise either (the
`errors='ignore'` decode is total and drops the offending bytes, staying in
TEXT mode, with no binary fallback); the raw-byte fallback is used only when
the text open/read itself raises, and then it preserves the original bytes of
the file exactly (round-trip on raw byte read). -/
theorem text_load_lossless_valid_utf8_and_fallback_roundtrip
    (s : List Nat) (h : ∀ n ∈ s, isScalar n) (binRes : Except String (List Nat))
    (bs : List Nat) (msg : String) :
    loadContent (Except.ok (utf8Encode s)) binRes
      = Except.ok ⟨universalNewlines s, BytesType.TEXT⟩ ∧
    (13 ∉ s → loadContent (Except.ok (utf8Encode s)) binRes
      = Except.ok ⟨s, BytesType.TEXT⟩) ∧
    loadContent (Except.error msg) (Except.ok bs) = Except.ok ⟨bs, BytesType.BYTES⟩ := by
  refine ⟨?_, ?_, rfl⟩
  · simp [loadContent, utf8DecodeIgnore_encode s h]
  · intro hcr
    simp [loadContent, utf8DecodeIgnore_encode s h, universalNewlines_eq_self s hcr]

/-- C3, witness: a carriage-return-free four-character text covering the 1-,
2-, 3- and 4-byte UTF-8 encodings survives text loading unchanged, and a
failed text read falls back to the exact raw bytes. -/
theorem text_load_witness :
    loadContent (Except.ok (utf8Encode [104, 233, 20013, 128512])) (Except.ok [])
      = Except.ok ⟨[104, 233, 20013, 128512], BytesType.TEXT⟩ ∧
    loadContent (Except.error "io failure") (Except.ok [255, 0])
      = Except.ok ⟨[255, 0], BytesType.BYTES⟩ :=
  ⟨(text_load_lossless_valid_utf8_and_fallback_roundtrip [104, 233, 20013, 128512]
      (by decide) (Except.ok []) [255, 0] "io failure").2.1 (by decide),
   (text_load_lossless_valid_utf8_and_fallback_roundtrip [104, 233, 20013, 128512]
      (by decide) (Except.ok []) [255, 0] "io failure").2.2⟩

/-- C4.  Both sink variants fail closed: an error raised by the hybrid
submission call is caught and becomes the failure outcome carrying the error
text, the walk still yields an outcome for every file; an error raised by the
synchronous `inspect_content` call is caught and `inspect_file` returns
normally with the error outcome.  The only fatal remote-client failure is the
initial client construction: the hybrid script stops before visiting any file
(`none`), and the synchronous script lets the constructor's exception
propagate out of `inspect_file`. -/
theorem fail_closed_sink_errors :
    (∀ (sink : HybridRequest → Except String Unit) (jobName filePath : String)
        (content : List Nat) (e : String),
      sink (buildHybridRequest jobName filePath content) = Except.error e →
        (send_to_hybrid_job sink jobName filePath content).1 = Outcome.sendFailed e) ∧
    (∀ (cfg : Config) (fs : FS) (sink : HybridRequest → Except String Unit)
        (jobName : String) (files : List String),
      (runWalk cfg fs sink jobName files).map Prod.fst = files) ∧
    (∀ (fs : String → Except ReadErr (List Nat))
        (sink : InspectRequest → Except String InspectResponse)
        (projectId : String) (its : List String) (minLikelihood filePath : String)
        (content : List Nat) (e : String),
      fs filePath = Except.ok content →
      sink (buildInspectRequest projectId its minLikelihood content) = Except.error e →
        inspect_file (Except.ok ()) fs sink projectId its minLikelihood filePath
          = Except.ok (SyncOutcome.inspectError e,
              [SyncEffect.sendRequest (buildInspectRequest projectId its minLikelihood content)])) ∧
    (∀ (cfg : Config) (fs : FS) (sink : HybridRequest → Except String Unit)
        (jobName : String) (files : List String) (e : String),
      runHybridScript (Except.error e) cfg fs sink jobName files = none) ∧
    (∀ (e : String) (fs : String → Except ReadErr (List Nat))
        (sink : InspectRequest → Except String InspectResponse)
        (projectId : String) (its : List String) (minLikelihood filePath : String),
      inspect_file (Except.error e) fs sink projectId its minLikelihood filePath
        = Except.error e) := by
  refine ⟨?_, ?_, ?_, ?_, ?_⟩
  · intro sink jobName filePath content e hsink
    simp [send_to_hybrid_job, hsink]
  · intro cfg fs sink jobName files
    simp [runWalk, List.map_map, Function.comp_def]
  · intro fs sink projectId its minLikelihood filePath content e hread hsink
    simp [inspect_file, hread, hsink]
  · intro cfg fs sink jobName files e
    rfl
  · intro e fs sink projectId its minLikelihood filePath
    rfl

/-- C4, witness: a hybrid submission error becomes the failure outcome with
the error text, and a synchronous inspect error is caught and reported while
the function returns normally. -/
theorem fail_closed_witness :
    (send_to_hybrid_job (fun _ => Except.error "boom") "job" "f.txt" [1]).1
      = Outcome.sendFailed "boom" ∧
    inspect_file (Except.ok ()) (fun _ => Except.ok [7])
        (fun _ => Except.error "rpc failed") "pid" ["EMAIL_ADDRESS"] "POSSIBLE" "f.txt"
      = Except.ok (SyncOutcome.inspectError "rpc failed",
          [SyncEffect.sendRequest
            (buildInspectRequest "pid" ["EMAIL_ADDRESS"] "POSSIBLE" [7])]) :=
  ⟨fail_closed_sink_errors.1 (fun _ => Except.error "boom") "job" "f.txt" [1] "boom" rfl,
   fail_closed_sink_errors.2.2.1 (fun _ => Except.ok [7])
     (fun _ => Except.error "rpc failed") "pid" ["EMAIL_ADDRESS"] "POSSIBLE" "f.txt" [7]
     "rpc failed" rfl rfl⟩

/-- C6.  The synchronous adapter forwards the configured minimum-likelihood
threshold to the remote request unmodified, and does not re-filter
client-side: when the sink answers, the reported outcome contains exactly the
findings of the response, as-is. -/
theorem threshold_passed_through_no_refilter
    (fs : String → Except ReadErr (List Nat))
    (sink : InspectRequest → Except String InspectResponse)
    (projectId : String) (its : List String) (minLikelihood filePath : String)
    (content : List Nat) (resp : InspectResponse)
    (hread : fs filePath = Except.ok content)
    (hsink : sink (buildInspectRequest projectId its minLikelihood content)
      = Except.ok resp) :
    (buildInspectRequest projectId its minLikelihood content).minLikelihood
      = minLikelihood ∧
    inspect_file (Except.ok ()) fs sink projectId its minLikelihood filePath
      = Except.ok (SyncOutcome.inspected resp.findings,
          [SyncEffect.sendRequest
            (buildInspectRequest projectId its minLikelihood content)]) := by
  refine ⟨rfl, ?_⟩
  simp [inspect_file, hread, hsink]

/-- C6, witness: a stub response with likelihoods POSSIBLE, VERY_UNLIKELY and
LIKELY is reported in full and unchanged — the VERY_UNLIKELY finding is not
filtered out client-side — and the request carries the threshold POSSIBLE. -/
theorem threshold_passed_through_witness :
    (buildInspectRequest "pid" ["EMAIL_ADDRESS"] "POSSIBLE" [65]).minLikelihood
      = "POSSIBLE" ∧
    inspect_file (Except.ok ()) (fun _ => Except.ok [65])
        (fun _ => Except.ok ⟨[⟨⟨"EMAIL_ADDRESS"⟩, "POSSIBLE", ⟨none, none, none⟩, "a@b"⟩,
          ⟨⟨"PHONE_NUMBER"⟩, "VERY_UNLIKELY", ⟨none, none, none⟩, "555"⟩,
          ⟨⟨"EMAIL_ADDRESS"⟩, "LIKELY", ⟨none, none, none⟩, "c@d"⟩]⟩)
        "pid" ["EMAIL_ADDRESS"] "POSSIBLE" "f.txt"
      = Except.ok (SyncOutcome.inspected
          [⟨⟨"EMAIL_ADDRESS"⟩, "POSSIBLE", ⟨none, none, none⟩, "a@b"⟩,
           ⟨⟨"PHONE_NUMBER"⟩, "VERY_UNLIKELY", ⟨none, none, none⟩, "555"⟩,
           ⟨⟨"EMAIL_ADDRESS"⟩, "LIKELY", ⟨none, none, none⟩, "c@d"⟩],
          [SyncEffect.sendRequest
            (buildInspectRequest "pid" ["EMAIL_ADDRESS"] "POSSIBLE" [65])]) :=
  threshold_passed_through_no_refilter (fun _ => Except.ok [65])
    (fun _ => Except.ok ⟨[⟨⟨"EMAIL_ADDRESS"⟩, "POSSIBLE", ⟨none, none, none⟩, "a@b"⟩,
      ⟨⟨"PHONE_NUMBER"⟩, "VERY_UNLIKELY", ⟨none, none, none⟩, "555"⟩,
      ⟨⟨"EMAIL_ADDRESS"⟩, "LIKELY", ⟨none, none, none⟩, "c@d"⟩]⟩)
    "pid" ["EMAIL_ADDRESS"] "POSSIBLE" "f.txt" [65] _ rfl rfl

/-- C7.  In strict-binary mode, a file that cannot be opened or read yields
the error outcome carrying the underlying reason, `inspect_file` returns
normally (no exception propagates), and no remote inspection call is made;
when the read succeeds, the entire byte content of the file — nothing
partial — is placed in the single submitted request. -/
theorem strict_binary_read_errors_no_remote_call
    (fs : String → Except ReadErr (List Nat))
    (sink : InspectRequest → Except String InspectResponse)
    (projectId : String) (its : List String) (minLikelihood filePath : String) :
    (∀ e, fs filePath = Except.error e →
      inspect_file (Except.ok ()) fs sink projectId its minLikelihood filePath
        = Except.ok (SyncOutcome.readFailed e, [])) ∧
    (∀ content, fs filePath = Except.ok content →
      (buildInspectRequest projectId its minLikelihood content).data = content ∧
      ∃ o, inspect_file (Except.ok ()) fs sink projectId its minLikelihood filePath
        = Except.ok (o, [SyncEffect.sendRequest
            (buildInspectRequest projectId its minLikelihood content)])) := by
  constructor
  · intro e he
    simp [inspect_file, he]
  · intro content hc
    refine ⟨rfl, ?_⟩
    cases hs : sink (buildInspectRequest projectId its minLikelihood content) with
    | ok resp =>
      exact ⟨SyncOutcome.inspected resp.findings, by simp [inspect_file, hc, hs]⟩
    | error e =>
      exact ⟨SyncOutcome.inspectError e, by simp [inspect_file, hc, hs]⟩

/-- C7, witness: a missing file yields the file-not-found outcome with no
remote call and a normal return. -/
theorem strict_binary_witness :
    inspect_file (Except.ok ()) (fun _ => Except.error ReadErr.fileNotFound)
        (fun _ => Except.ok ⟨[]⟩) "pid" ["EMAIL_ADDRESS"] "POSSIBLE" "missing.txt"
      = Except.ok (SyncOutcome.readFailed ReadErr.fileNotFound, []) :=
  (strict_binary_read_errors_no_remote_call (fun _ => Except.error ReadErr.fileNotFound)
    (fun _ => Except.ok ⟨[]⟩) "pid" ["EMAIL_ADDRESS"] "POSSIBLE" "missing.txt").1
    ReadErr.fileNotFound rfl

/-- C10, counterexample.  The printed output for a finding is not limited to
info-type, likelihood and byte range: when the finding's location carries
codeword info or content locations, those are printed too (lines 70-73). -/
theorem print_includes_codeword_and_content_locations :
    printFinding ⟨⟨"EMAIL_ADDRESS"⟩, "LIKELY", ⟨none, some "cw-info", some "container-loc"⟩,
        "secret-match"⟩
      = ["  InfoType: EMAIL_ADDRESS", "  Likelihood: LIKELY",
         "  Codeword info: cw-info", "  Content locations: container-loc",
         "--------------------"] := by
  decide

/-- C10, amended.  The printed output for a finding contains its info-type
name, likelihood and byte range, plus the codeword info and content locations
when those location fields are present — and never the matched sensitive text
itself: the printed lines are identical under any change of the finding's
`quote` field, whatever the finding's content. -/
theorem print_never_contains_quote (f : Finding) (q1 q2 : String) :
    printFinding { f with quote := q1 } = printFinding { f with quote := q2 } ∧
    "  InfoType: " ++ f.infoType.name ∈ printFinding f ∧
    "  Likelihood: " ++ f.likelihood ∈ printFinding f := by
  refine ⟨rfl, ?_, ?_⟩ <;> simp [printFinding]

/-- C9, amended, witness: the characterization instantiated on `a.txt`
against the allow-list `[".TXT"]`. -/
theorem extension_filter_lowercases_file_ext_only_witness :
    (processFile ⟨[".TXT"], 1000⟩
        ⟨fun _ => Except.ok 10, fun _ => Except.ok [], fun _ => Except.ok []⟩
        (fun _ => Except.ok ()) "job" "a.txt").1 = Outcome.skippedExtension ↔
      excludedByExtension [".TXT"] "a.txt" = true :=
  extension_filter_lowercases_file_ext_only.1 ⟨[".TXT"], 1000⟩
    ⟨fun _ => Except.ok 10, fun _ => Except.ok [], fun _ => Except.ok []⟩
    (fun _ => Except.ok ()) "job" "a.txt"

/-- C8, witness: a two-file walk in which one submission fails and one file
is skipped for size still tallies every file exactly once. -/
theorem every_file_exactly_one_outcome_counts_total_witness :
    (runWalk ⟨[], 100⟩
        ⟨fun p => if p = "big.txt" then Except.ok 500 else Except.ok 10,
          fun _ => Except.ok [104], fun _ => Except.ok [104]⟩
        (fun _ => Except.error "rpc down") "job" ["a.txt", "big.txt"]).map Prod.fst
      = ["a.txt", "big.txt"] ∧
    processedCount (runWalk ⟨[], 100⟩
        ⟨fun p => if p = "big.txt" then Except.ok 500 else Except.ok 10,
          fun _ => Except.ok [104], fun _ => Except.ok [104]⟩
        (fun _ => Except.error "rpc down") "job" ["a.txt", "big.txt"])
      + skippedCount (runWalk ⟨[], 100⟩
        ⟨fun p => if p = "big.txt" then Except.ok 500 else Except.ok 10,
          fun _ => Except.ok [104], fun _ => Except.ok [104]⟩
        (fun _ => Except.error "rpc down") "job" ["a.txt", "big.txt"])
      = (["a.txt", "big.txt"] : List String).length ∧
    (runWalk ⟨[], 100⟩
        ⟨fun p => if p = "big.txt" then Except.ok 500 else Except.ok 10,
          fun _ => Except.ok [104], fun _ => Except.ok [104]⟩
        (fun _ => Except.error "rpc down") "job" ["a.txt", "big.txt"]).all
      (fun r => r.2.1.countsProcessed != r.2.1.countsSkipped) = true :=
  every_file_exactly_one_outcome_counts_total ⟨[], 100⟩
    ⟨fun p => if p = "big.txt" then Except.ok 500 else Except.ok 10,
      fun _ => Except.ok [104], fun _ => Except.ok [104]⟩
    (fun _ => Except.error "rpc down") "job" ["a.txt", "big.txt"]

/-- C10, amended, witness: a concrete finding printed identically under two
different quotes. -/
theorem print_never_contains_quote_witness :
    printFinding ⟨⟨"EMAIL_ADDRESS"⟩, "LIKELY", ⟨some ⟨3, 18⟩, none, none⟩, "first quote"⟩
      = printFinding ⟨⟨"EMAIL_ADDRESS"⟩, "LIKELY", ⟨some ⟨3, 18⟩, none, none⟩, "other quote"⟩ ∧
    "  InfoType: " ++ "EMAIL_ADDRESS"
      ∈ printFinding ⟨⟨"EMAIL_ADDRESS"⟩, "LIKELY", ⟨some ⟨3, 18⟩, none, none⟩, "first quote"⟩ ∧
    "  Likelihood: " ++ "LIKELY"
      ∈ printFinding ⟨⟨"EMAIL_ADDRESS"⟩, "LIKELY", ⟨some ⟨3, 18⟩, none, none⟩, "first quote"⟩ :=
  print_never_contains_quote
    ⟨⟨"EMAIL_ADDRESS"⟩, "LIKELY", ⟨some ⟨3, 18⟩, none, none⟩, "first quote"⟩
    "first quote" "other quote"

end DlpModel
